import Mathlib

/-!
Shallow embedding of `src/himawari.py`, a convertible-device input manager:
three watcher processes translate external notifications into events on a
shared multiprocessing queue, and a single dispatcher loop feeds each event
to a handler owning the device mode (laptop/tablet).

Conventions of the embedding:
* Python byte strings are `List Nat` (one `Nat` per byte).
* Python exceptions are `Except Err`; a function whose Python original can
  let an exception escape returns `Except Err _`, a function that cannot
  returns a plain value.
* Side effects on the external action surface (`subprocess.call`,
  `subprocess.Popen`, `os.kill`) are recorded as `Action` values in the
  order the Python code would issue them; `logger.debug`/`logger.info`
  calls are pure logging and are not recorded, but the `logger.warn` calls
  inside the handler's `try/except` blocks are recorded (the claims speak
  about them).
* Environment facts the code cannot determine (whether launching the
  on-screen keyboard succeeds, whether the keyboard process is still alive
  when killed) are parameters in `Env`.
-/

namespace Himawari

/-- Errors a piece of the embedded Python code can raise. -/
inductive Err where
  | keyError (key : String)
  | indexError
  | attributeError (attr : String)
  | processLookupError
  | other (msg : String)
deriving DecidableEq, Repr

/-- Events travelling over the message queue, as constructed at the
`message_queue.put` sites: `('mode-change', [])`, `('rotate', [orientation])`,
`('stylus-event', [status])` and `('exit', [name, reason, exc_info])`. -/
inductive Event where
  | modeChange
  | rotate (orientation : String)
  | stylusEvent (status : List Nat)
  | watcherExit (name : String) (reason : String) (error : Err)
deriving DecidableEq, Repr

/-- Calls issued on the external action surface, in program order. -/
inductive Action where
  | xinput (cmd : String) (device : String)
  | xrandr (orientation : String)
  | xsetwacom (device : String) (rotation : String)
  | startOnboard
  | killOnboard (pid : Nat)
  | logWarn (msg : String)
deriving DecidableEq, Repr

/-- Handler state: the `is_tablet` flag of `BasicEventHandler` plus the
device handles `DefaultEventHandler.initialize` discovers and the optional
`onboard` process handle (`none` models the attribute not existing because
`subprocess.Popen` in `on_tablet_mode` failed or was never run). -/
structure HState where
  is_tablet : Bool
  wacom : List String
  trackpoint : String
  touchpad : String
  onboard : Option Nat
deriving DecidableEq, Repr

/-- Facts about the outside world the handler's calls depend on. -/
structure Env where
  launchOk : Bool
  onboardPid : Nat
  killOk : Bool
deriving DecidableEq, Repr

/-- Embeds `DefaultEventHandler.xrandr_orientation_map`; `none` models the
`KeyError` Python raises on a key outside the dict. -/
def xrandr_orientation_map : String → Option String
  | "right-up" => some "right"
  | "normal" => some "normal"
  | "bottom-up" => some "inverted"
  | "left-up" => some "left"
  | _ => none

/-- Embeds `DefaultEventHandler.wacom_orientation_map`. -/
def wacom_orientation_map : String → Option String
  | "right-up" => some "cw"
  | "normal" => some "none"
  | "bottom-up" => some "half"
  | "left-up" => some "ccw"
  | _ => none

/-- Embeds `DefaultEventHandler.on_rotate`: one `xrandr -o` call with the
display mapping, then one `xsetwacom --set _ rotate` call per detected wacom
device with the stylus mapping.  A `KeyError` from either dict lookup
escapes the method (the two dicts have the same key set, so the lookup used
inside the device loop fails exactly when the first one does). -/
def on_rotate (st : HState) (o : String) : Except Err (List Action) :=
  match xrandr_orientation_map o with
  | none => Except.error (Err.keyError o)
  | some xo =>
    match wacom_orientation_map o with
    | none => Except.error (Err.keyError o)
    | some wo =>
      Except.ok (Action.xrandr xo :: st.wacom.map (fun d => Action.xsetwacom d wo))

/-- Embeds `DefaultEventHandler.on_tablet_mode`: disable trackpoint and
touchpad, then best-effort launch of the onboard keyboard inside a
`try/except` that logs a launch failure. -/
def on_tablet_mode (env : Env) (st : HState) : HState × List Action :=
  let acts := [Action.xinput "disable" st.trackpoint, Action.xinput "disable" st.touchpad]
  if env.launchOk then
    ({ st with onboard := some env.onboardPid }, acts ++ [Action.startOnboard])
  else
    (st, acts ++ [Action.logWarn "exception while starting onboard: "])

/-- Embeds the body of the `try` in `on_laptop_mode`: evaluating
`self.onboard.pid` raises `AttributeError` when the attribute was never set,
and `os.kill` raises when the process is already gone. -/
def tryKillOnboard (env : Env) (st : HState) : Except Err Unit :=
  match st.onboard with
  | none => Except.error (Err.attributeError "onboard")
  | some _ => if env.killOk then Except.ok () else Except.error Err.processLookupError

/-- Embeds `DefaultEventHandler.on_laptop_mode`: re-enable trackpoint and
touchpad, then try to terminate the onboard keyboard; any failure of that
step is caught by the bare `except` and logged. -/
def on_laptop_mode (env : Env) (st : HState) : HState × List Action :=
  ( st,
    [Action.xinput "enable" st.trackpoint, Action.xinput "enable" st.touchpad] ++
      match tryKillOnboard env st with
      | Except.ok _ => [Action.killOnboard (st.onboard.getD 0)]
      | Except.error _ => [Action.logWarn "exception while terminating onboard: "] )

/-- Embeds `BasicEventHandler.on_mode_change` with the default handler's
mode callbacks: flip `is_tablet`, then run `on_tablet_mode` or
`on_laptop_mode` on the new mode. -/
def on_mode_change (env : Env) (st : HState) : HState × List Action :=
  let st2 := { st with is_tablet := !st.is_tablet }
  if st2.is_tablet then on_tablet_mode env st2 else on_laptop_mode env st2

/-- Embeds one iteration of the dispatch loop in `run`: an `exit` event is
only logged, `mode-change` goes to `on_mode_change`, `rotate` to
`on_rotate` and `stylus-event` to `on_stylus_event` (which only logs).
There is no `try/except` around the handler calls, so an exception raised
by the handler escapes the loop body. -/
def dispatchStep (env : Env) (st : HState) : Event → Except Err (HState × List Action)
  | Event.watcherExit _ _ _ => Except.ok (st, [])
  | Event.modeChange => Except.ok (on_mode_change env st)
  | Event.rotate o => (on_rotate st o).map (fun a => (st, a))
  | Event.stylusEvent _ => Except.ok (st, [])

/-- Embeds the dispatch loop of `run` over a finite list of queued events.
Returns the final handler state, the list of events whose handling
completed, and the exception that terminated the loop, if any: an exception
from a handler call propagates out of the `while True` loop, so no later
event is popped once one handler call raises. -/
def runDispatch (env : Env) (st : HState) : List Event → HState × List Event × Option Err
  | [] => (st, [], none)
  | e :: rest =>
    match dispatchStep env st e with
    | Except.error err => (st, [], some err)
    | Except.ok (st2, _) =>
      let r := runDispatch env st2 rest
      (r.1, e :: r.2.1, r.2.2)

/-- Embeds `process_wrapper`: run the watcher body; on an uncaught
exception, log it and try to put an `exit` event carrying the watcher name,
the literal reason string and the captured exception info on the queue;
a failure of the `put` itself is swallowed by the inner bare `except`.
The queue is passed as the list of events already enqueued; the wrapper
returns the queue unconditionally (its Python original lets no exception
escape). `putOk` states whether `message_queue.put` succeeds. -/
def process_wrapper (name : String) (targetResult : Except Err Unit)
    (putOk : Bool) (q : List Event) : List Event :=
  match targetResult with
  | Except.ok _ => q
  | Except.error e =>
    if putOk then q ++ [Event.watcherExit name "uncaught-exception" e] else q

/-- Concrete handler state used to instantiate theorems. -/
def sampleState : HState :=
  { is_tablet := false, wacom := ["Wacom Pen"], trackpoint := "TrackPoint",
    touchpad := "TouchPad", onboard := none }

/-- Concrete environment used to instantiate theorems. -/
def sampleEnv : Env := { launchOk := true, onboardPid := 42, killOk := true }

lemma on_mode_change_is_tablet (env : Env) (st : HState) :
    (on_mode_change env st).1.is_tablet = !st.is_tablet := by
  by_cases h : st.is_tablet <;> by_cases hl : env.launchOk <;>
    simp [on_mode_change, on_tablet_mode, on_laptop_mode, tryKillOnboard, h, hl]

lemma runDispatch_replicate_modeChange (env : Env) : ∀ (n : Nat) (st : HState),
    ((runDispatch env st (List.replicate n Event.modeChange)).1.is_tablet
        = Bool.xor (decide (n % 2 = 1)) st.is_tablet)
    ∧ (runDispatch env st (List.replicate n Event.modeChange)).2.2 = none := by
  intro n
  induction n with
  | zero => intro st; simp [runDispatch]
  | succ k ih =>
    intro st
    have hstep : dispatchStep env st Event.modeChange
        = Except.ok (on_mode_change env st) := rfl
    have hrec : runDispatch env st (List.replicate (k + 1) Event.modeChange)
        = (let r := runDispatch env (on_mode_change env st).1
              (List.replicate k Event.modeChange)
           (r.1, Event.modeChange :: r.2.1, r.2.2)) := by
      simp [List.replicate_succ, runDispatch, hstep]
    rcases ih (on_mode_change env st).1 with ⟨h1, h2⟩
    rw [on_mode_change_is_tablet] at h1
    refine ⟨?_, by simpa [hrec] using h2⟩
    rw [hrec]
    simp only [h1]
    rcases Nat.mod_two_eq_zero_or_one k with hk | hk <;>
      cases st.is_tablet <;> simp [Nat.add_mod, hk]

/-- C1: starting from `is_tablet = false` (Laptop), dispatching any
sequence of `n` `ModeChange` events leaves `is_tablet` true exactly when
`n` is odd; moreover `on_mode_change` flips the mode unconditionally, so
two consecutive `ModeChange` events restore the original mode. -/
theorem mode_change_parity (env : Env) (n : Nat) (st : HState)
    (h : st.is_tablet = false) :
    ((runDispatch env st (List.replicate n Event.modeChange)).1.is_tablet
        = decide (n % 2 = 1))
    ∧ (∀ st2 : HState, (on_mode_change env st2).1.is_tablet = !st2.is_tablet)
    ∧ (∀ st2 : HState,
        (on_mode_change env (on_mode_change env st2).1).1.is_tablet
          = st2.is_tablet) := by
  refine ⟨?_, fun st2 => on_mode_change_is_tablet env st2, fun st2 => ?_⟩
  · have := (runDispatch_replicate_modeChange env n st).1
    rw [h] at this
    simpa using this
  · rw [on_mode_change_is_tablet, on_mode_change_is_tablet, Bool.not_not]

/-- Witness for `mode_change_parity` at a concrete state and `n = 3`. -/
theorem mode_change_parity_witness :
    sampleState.is_tablet = false
    ∧ ((runDispatch sampleEnv sampleState
          (List.replicate 3 Event.modeChange)).1.is_tablet = decide (3 % 2 = 1)) :=
  ⟨rfl, (mode_change_parity sampleEnv 3 sampleState rfl).1⟩

/-- C2: for each of the four orientations, `on_rotate` issues the display
action with exactly the `xrandr_orientation_map` value and, for every
detected wacom device, the device-rotation action with exactly the
`wacom_orientation_map` value. -/
theorem on_rotate_tables (st : HState) :
    on_rotate st "right-up"
        = Except.ok (Action.xrandr "right"
            :: st.wacom.map (fun d => Action.xsetwacom d "cw"))
    ∧ on_rotate st "normal"
        = Except.ok (Action.xrandr "normal"
            :: st.wacom.map (fun d => Action.xsetwacom d "none"))
    ∧ on_rotate st "bottom-up"
        = Except.ok (Action.xrandr "inverted"
            :: st.wacom.map (fun d => Action.xsetwacom d "half"))
    ∧ on_rotate st "left-up"
        = Except.ok (Action.xrandr "left"
            :: st.wacom.map (fun d => Action.xsetwacom d "ccw")) :=
  ⟨rfl, rfl, rfl, rfl⟩

/-- C4: when the watcher body raises, `process_wrapper` enqueues exactly one
`WatcherExit` event carrying the watcher name, the reason
`uncaught-exception` and the captured error; when the enqueue itself fails
the failure is swallowed and the queue is unchanged; when the body returns
normally nothing is enqueued.  In every case the wrapper returns (it never
propagates an exception, as its return type shows). -/
theorem process_wrapper_spec (name : String) (e : Err) (putOk : Bool)
    (q : List Event) :
    process_wrapper name (Except.error e) putOk q
        = (if putOk then q ++ [Event.watcherExit name "uncaught-exception" e]
           else q)
    ∧ process_wrapper name (Except.ok ()) putOk q = q :=
  ⟨rfl, rfl⟩

/-- C5 counterexample: with the default handler, the orientation
`"undefined"` makes `on_rotate` raise a `KeyError`; dispatching
`[Rotate "undefined", ModeChange]` processes no further event — the
`ModeChange` behind the failing event is never handled, refuting the claim
that a handler failure never stops the dispatch loop. -/
theorem run_abandons_rest_after_error :
    (runDispatch sampleEnv sampleState
        [Event.rotate "undefined", Event.modeChange]).2.1 = []
    ∧ (runDispatch sampleEnv sampleState
        [Event.rotate "undefined", Event.modeChange]).2.2
        = some (Err.keyError "undefined") :=
  ⟨rfl, rfl⟩

/-- C5 amended: the dispatch loop has no exception handling around the
handler calls, so when the handler raises while processing one event the
exception propagates, the loop stops, and no subsequent event is popped or
processed; subsequent events are all processed only when no handler call
raises. -/
theorem run_stops_on_handler_error (env : Env) (st : HState) (e : Event)
    (rest : List Event) (err : Err)
    (h : dispatchStep env st e = Except.error err) :
    runDispatch env st (e :: rest) = (st, [], some err) := by
  simp [runDispatch, h]

/-- Witness for `run_stops_on_handler_error` at the `"undefined"`
orientation. -/
theorem run_stops_on_handler_error_witness :
    dispatchStep sampleEnv sampleState (Event.rotate "undefined")
        = Except.error (Err.keyError "undefined")
    ∧ runDispatch sampleEnv sampleState
        [Event.rotate "undefined", Event.modeChange]
        = (sampleState, [], some (Err.keyError "undefined")) :=
  ⟨rfl, run_stops_on_handler_error sampleEnv sampleState
    (Event.rotate "undefined") [Event.modeChange] (Err.keyError "undefined") rfl⟩

/-- C6: dispatching a `WatcherExit` event only logs: it calls no handler
method, changes no handler state and issues no action. -/
theorem watcher_exit_only_logged (env : Env) (st : HState)
    (name reason : String) (e : Err) :
    dispatchStep env st (Event.watcherExit name reason e)
      = Except.ok (st, []) := rfl

/-- C10: `on_laptop_mode` always returns (the bare `except` around the
kill step catches everything, including the `AttributeError` when no
onboard process was ever started, in which case the failure is logged),
and the two re-enable calls for trackpoint and touchpad are always issued
first, before the termination step. -/
theorem on_laptop_mode_spec (env : Env) (st : HState) (h : st.onboard = none) :
    on_laptop_mode env st
        = (st, [Action.xinput "enable" st.trackpoint,
                Action.xinput "enable" st.touchpad,
                Action.logWarn "exception while terminating onboard: "])
    ∧ (∀ (env2 : Env) (st2 : HState),
        (on_laptop_mode env2 st2).2.take 2
          = [Action.xinput "enable" st2.trackpoint,
             Action.xinput "enable" st2.touchpad]) := by
  constructor
  · simp [on_laptop_mode, tryKillOnboard, h]
  · intro env2 st2
    cases htk : tryKillOnboard env2 st2 <;> simp [on_laptop_mode, htk]

/-- Witness for `on_laptop_mode_spec` at a state with no onboard handle. -/
theorem on_laptop_mode_spec_witness :
    sampleState.onboard = none
    ∧ on_laptop_mode sampleEnv sampleState
        = (sampleState, [Action.xinput "enable" "TrackPoint",
                         Action.xinput "enable" "TouchPad",
                         Action.logWarn "exception while terminating onboard: "]) :=
  ⟨rfl, (on_laptop_mode_spec sampleEnv sampleState rfl).1⟩

/-- Bytes of the constant `EV_TABLET_MODE = b" 40D1BF71-A82D-4E"`. -/
def EV_TABLET_MODE : List Nat :=
  [32, 52, 48, 68, 49, 66, 70, 55, 49, 45, 65, 56, 50, 68, 45, 52, 69]

/-- Splits a byte string into its complete newline-terminated records plus
the trailing remainder after the last newline.  This is what repeated
`SocketWrapper.read_line` calls (`buffer.split` at the first newline, rest
kept in the buffer) produce from a buffered byte string. -/
def lineSplit : List Nat → List (List Nat) × List Nat
  | [] => ([], [])
  | b :: rest =>
    let p := lineSplit rest
    if b = 10 then ([] :: p.1, p.2)
    else
      match p.1 with
      | [] => ([], b :: p.2)
      | l :: ls => ((b :: l) :: ls, p.2)

lemma lineSplit_cons_nl (rest : List Nat) :
    lineSplit (10 :: rest) = ([] :: (lineSplit rest).1, (lineSplit rest).2) := by
  simp [lineSplit]

lemma lineSplit_cons_ne (b : Nat) (rest : List Nat) (h : b ≠ 10) :
    lineSplit (b :: rest)
      = (match (lineSplit rest).1 with
         | [] => ([], b :: (lineSplit rest).2)
         | l :: ls => ((b :: l) :: ls, (lineSplit rest).2)) := by
  simp [lineSplit, h]

lemma lineSplit_no_nl (l : List Nat) (h : (10 : Nat) ∉ l) :
    lineSplit l = ([], l) := by
  induction l with
  | nil => rfl
  | cons b rest ih =>
    have hb : b ≠ 10 := by
      intro hb; exact h (by rw [hb]; exact List.mem_cons_self 10 rest)
    have hr : (10 : Nat) ∉ rest := fun hr => h (List.mem_cons_of_mem b hr)
    rw [lineSplit_cons_ne b rest hb, ih hr]

lemma lineSplit_rem_no_nl (l : List Nat) : (10 : Nat) ∉ (lineSplit l).2 := by
  induction l with
  | nil => simp [lineSplit]
  | cons b rest ih =>
    by_cases hb : b = 10
    · subst hb; rw [lineSplit_cons_nl]; exact ih
    · rw [lineSplit_cons_ne b rest hb]
      rcases hsp : (lineSplit rest).1 with _ | ⟨l1, ls⟩
      · intro hmem
        simp only [List.mem_cons] at hmem
        rcases hmem with h10 | h10
        · exact hb h10.symm
        · exact ih h10
      · simpa using ih

lemma lineSplit_append (a b : List Nat) :
    lineSplit (a ++ b)
      = ((lineSplit a).1 ++ (lineSplit ((lineSplit a).2 ++ b)).1,
         (lineSplit ((lineSplit a).2 ++ b)).2) := by
  induction a with
  | nil => simp [lineSplit]
  | cons x a' ih =>
    by_cases hx : x = 10
    · subst hx
      rw [List.cons_append, lineSplit_cons_nl, lineSplit_cons_nl, ih]
      simp
    · rw [List.cons_append, lineSplit_cons_ne x (a' ++ b) hx, ih,
        lineSplit_cons_ne x a' hx]
      rcases hsp : (lineSplit a').1 with _ | ⟨l1, ls⟩
      · simp only [List.nil_append, List.cons_append]
        rw [lineSplit_cons_ne x ((lineSplit a').2 ++ b) hx]
      · simp

/-- Embeds the socket watcher's buffering behaviour over a finite sequence
of `recv` chunks: each chunk is appended to the `SocketWrapper` buffer, and
every complete newline-terminated record that becomes available is consumed
by a `read_line` call before the next `recv` happens (the watcher calls
`read_line` in a loop and `read_line` only calls `recv` while the buffer
holds no newline).  Returns the consumed records in order plus the final
buffer remainder. -/
def runChunks (buf : List Nat) : List (List Nat) → List (List Nat) × List Nat
  | [] => ([], buf)
  | c :: cs =>
    let p := lineSplit (buf ++ c)
    let r := runChunks p.2 cs
    (p.1 ++ r.1, r.2)

lemma runChunks_join : ∀ (cs : List (List Nat)) (buf : List Nat),
    (10 : Nat) ∉ buf →
    runChunks buf cs
      = ((lineSplit (buf ++ cs.flatten)).1, (lineSplit (buf ++ cs.flatten)).2) := by
  intro cs
  induction cs with
  | nil =>
    intro buf hb
    simp [runChunks, lineSplit_no_nl buf hb]
  | cons c cs ih =>
    intro buf hb
    have hrem := lineSplit_rem_no_nl (buf ++ c)
    simp only [runChunks, ih _ hrem, List.flatten_cons, ← List.append_assoc]
    rw [lineSplit_append (buf ++ c) cs.flatten]

/-- Embeds the body of the `while True` loop in `acpi_events_watcher` for
one record returned by `read_line`: emit one `ModeChange` event when the
record starts with `EV_TABLET_MODE`, nothing otherwise. -/
def acpi_line_events (line : List Nat) : List Event :=
  if EV_TABLET_MODE.isPrefixOf line then [Event.modeChange] else []

/-- Events `acpi_events_watcher` has pushed after consuming the given
sequence of `recv` chunks, starting from an empty buffer. -/
def acpi_events (chunks : List (List Nat)) : List Event :=
  ((runChunks [] chunks).1.map acpi_line_events).flatten

lemma map_join_acpi (lines : List (List Nat)) :
    (lines.map acpi_line_events).flatten
      = List.replicate
          ((lines.filter (fun l => EV_TABLET_MODE.isPrefixOf l)).length)
          Event.modeChange := by
  induction lines with
  | nil => rfl
  | cons l ls ih =>
    by_cases hl : EV_TABLET_MODE.isPrefixOf l <;>
      simp [acpi_line_events, hl, ih, List.replicate_succ]

/-- C3: the events the socket watcher emits depend only on the
concatenation of the raw byte stream, not on where the `recv` chunk
boundaries fall, and they are exactly one `ModeChange` per complete
newline-terminated record of the stream that starts with
`EV_TABLET_MODE` — records split across reads included — and nothing for
any other record. -/
theorem acpi_events_chunk_independent (chunks : List (List Nat)) :
    acpi_events chunks = acpi_events [chunks.flatten]
    ∧ acpi_events chunks
        = List.replicate
            (((lineSplit chunks.flatten).1.filter
                (fun l => EV_TABLET_MODE.isPrefixOf l)).length)
            Event.modeChange := by
  have hall : acpi_events chunks
      = List.replicate
          (((lineSplit chunks.flatten).1.filter
              (fun l => EV_TABLET_MODE.isPrefixOf l)).length)
          Event.modeChange := by
    unfold acpi_events
    rw [runChunks_join chunks [] (by simp), map_join_acpi]
    simp
  have hone : acpi_events [chunks.flatten]
      = List.replicate
          (((lineSplit chunks.flatten).1.filter
              (fun l => EV_TABLET_MODE.isPrefixOf l)).length)
          Event.modeChange := by
    unfold acpi_events
    rw [runChunks_join [chunks.flatten] [] (by simp), map_join_acpi]
    simp
  exact ⟨hall.trans hone.symm, hall⟩

/-- Embeds `sensor_proxy_signal_handler` inside `dbus_events_watcher`: when
the changed-properties dictionary has no `AccelerometerOrientation` key the
handler returns without doing anything; otherwise it pushes one `Rotate`
event carrying the new value. -/
def sensor_proxy_signal_handler
    (changedProperties : List (String × String)) : List Event :=
  match changedProperties.lookup "AccelerometerOrientation" with
  | none => []
  | some o => [Event.rotate o]

/-- Bytes of the token `b"proximity"` the stylus watcher matches. -/
def PROXIMITY : List Nat := [112, 114, 111, 120, 105, 109, 105, 116, 121]

/-- Embeds one iteration of the `for line in xinput_pipe.stdout` loop in
`stylus_events_watcher`: a line not starting with `b"proximity"` is
skipped; a matching line is split on spaces and its second field is pushed
as a `StylusEvent` (indexing `[1]` raises `IndexError` if the line has no
second field). -/
def stylus_line (line : List Nat) : Except Err (List Event) :=
  if PROXIMITY.isPrefixOf line then
    match (line.splitOn 32).get? 1 with
    | some status => Except.ok [Event.stylusEvent status]
    | none => Except.error Err.indexError
  else Except.ok []

/-- C7: each of the three malformed-input cases is silently ignored: a
socket record not starting with `EV_TABLET_MODE` produces no event, a
property-change notification without the `AccelerometerOrientation` key
produces no event, and a proximity-stream line not starting with
`b"proximity"` produces no event and no error. -/
theorem malformed_input_ignored
    (l1 : List Nat) (h1 : EV_TABLET_MODE.isPrefixOf l1 = false)
    (props : List (String × String))
    (h2 : props.lookup "AccelerometerOrientation" = none)
    (l3 : List Nat) (h3 : PROXIMITY.isPrefixOf l3 = false) :
    acpi_line_events l1 = []
    ∧ sensor_proxy_signal_handler props = []
    ∧ stylus_line l3 = Except.ok [] := by
  refine ⟨?_, ?_, ?_⟩
  · simp [acpi_line_events, h1]
  · simp [sensor_proxy_signal_handler, h2]
  · simp [stylus_line, h3]

/-- Witness for `malformed_input_ignored` at concrete non-matching inputs. -/
theorem malformed_input_ignored_witness :
    EV_TABLET_MODE.isPrefixOf [65] = false
    ∧ ([] : List (String × String)).lookup "AccelerometerOrientation" = none
    ∧ PROXIMITY.isPrefixOf [65] = false
    ∧ (acpi_line_events [65] = []
        ∧ sensor_proxy_signal_handler [] = []
        ∧ stylus_line [65] = Except.ok []) :=
  ⟨by decide, rfl, by decide,
    malformed_input_ignored [65] (by decide) [] rfl [65] (by decide)⟩

/-- Embeds the `buffer.split` call of `read_line`: the first
newline-terminated record of the buffer and what follows it, `none` when
the buffer holds no newline (in which case `read_line` keeps calling
`recv`). -/
def split_first_nl : List Nat → Option (List Nat × List Nat)
  | [] => none
  | b :: rest =>
    if b = 10 then some ([], rest)
    else
      match split_first_nl rest with
      | some (l, r) => some (b :: l, r)
      | none => none

/-- Embeds `SocketWrapper.read_line` with explicit fuel bounding how many
`recv` calls we observe: `stream j` is what the `j`-th `recv` returns
(`[]` models the empty byte string a closed peer yields forever), `k` is
the index of the next `recv`, and `buf` is `self.buffer`.  The Python loop
has no exit besides finding a newline: `none` means the loop was still
running when the fuel ran out. -/
def read_line_fuel (stream : Nat → List Nat) :
    Nat → Nat → List Nat → Option (List Nat × List Nat)
  | k, fuel, buf =>
    match split_first_nl buf with
    | some r => some r
    | none =>
      match fuel with
      | 0 => none
      | Nat.succ f => read_line_fuel stream (k + 1) f (buf ++ stream k)

lemma split_first_nl_none (l : List Nat) (h : (10 : Nat) ∉ l) :
    split_first_nl l = none := by
  induction l with
  | nil => rfl
  | cons b rest ih =>
    have hb : b ≠ 10 := by
      intro hb; exact h (by rw [hb]; exact List.mem_cons_self 10 rest)
    have hr : (10 : Nat) ∉ rest := fun hr => h (List.mem_cons_of_mem b hr)
    simp [split_first_nl, hb, ih hr]

/-- C9: when no `recv` result ever contains a newline byte — in particular
when the peer has closed and `recv` returns the empty byte string forever —
`read_line` never returns and never raises, whatever the current buffer
without a newline and however many loop iterations we watch: the watcher
blocks forever instead of observing end-of-stream. -/
theorem read_line_never_returns (stream : Nat → List Nat)
    (hs : ∀ j, (10 : Nat) ∉ stream j) :
    ∀ (fuel k : Nat) (buf : List Nat), (10 : Nat) ∉ buf →
      read_line_fuel stream k fuel buf = none := by
  intro fuel
  induction fuel with
  | zero =>
    intro k buf hb
    simp [read_line_fuel, split_first_nl_none buf hb]
  | succ f ih =>
    intro k buf hb
    have hb2 : (10 : Nat) ∉ buf ++ stream k := by
      intro hmem
      rcases List.mem_append.mp hmem with h | h
      · exact hb h
      · exact hs k h
    simp [read_line_fuel, split_first_nl_none buf hb, ih (k + 1) (buf ++ stream k) hb2]

/-- Witness for `read_line_never_returns` on the all-empty `recv` stream. -/
theorem read_line_never_returns_witness :
    (∀ j : Nat, (10 : Nat) ∉ (fun _ : Nat => ([] : List Nat)) j)
    ∧ read_line_fuel (fun _ => []) 0 5 [] = none :=
  ⟨fun _ => List.not_mem_nil 10,
    read_line_never_returns (fun _ => []) (fun _ => List.not_mem_nil 10) 5 0 []
      (List.not_mem_nil 10)⟩

/-- Scheduler choice for the multi-producer/single-consumer queue: either
producer `i` completes its next `message_queue.put`, or the dispatcher
completes one `message_queue.get`.  An arbitrary list of these choices
models an arbitrary interleaving of the three watcher processes and the
dispatcher around the FIFO `multiprocessing.Queue`. -/
inductive SchedStep where
  | push (i : Nat)
  | pop
deriving DecidableEq, Repr

/-- Global state of the queue model: the events each producer has left to
push, the FIFO queue contents, and the events the dispatcher has popped so
far (each tagged by its producer's index). -/
structure QState (α : Type) where
  pending : List (List α)
  queue : List (Nat × α)
  popped : List (Nat × α)
deriving DecidableEq, Repr

/-- One scheduler step: a `put` appends the producer's next event at the
queue tail, a `get` removes the event at the queue head; a step whose
actor has nothing to do (drained producer, empty queue) changes nothing. -/
def qstep {α : Type} (s : QState α) : SchedStep → QState α
  | SchedStep.push i =>
    match s.pending[i]? with
    | some (x :: xs) =>
      { s with pending := s.pending.set i xs, queue := s.queue ++ [(i, x)] }
    | _ => s
  | SchedStep.pop =>
    match s.queue with
    | [] => s
    | q :: qs => { s with queue := qs, popped := s.popped ++ [q] }

/-- Runs a whole schedule from a state. -/
def runSched {α : Type} (s : QState α) (steps : List SchedStep) : QState α :=
  steps.foldl qstep s

/-- Subsequence of tagged events belonging to producer `i`, untagged. -/
def proj {α : Type} (i : Nat) (l : List (Nat × α)) : List α :=
  (l.filter (fun p => p.1 == i)).map Prod.snd

/-- Start state: every producer still has its whole event list to push. -/
def initQ {α : Type} (producers : List (List α)) : QState α :=
  { pending := producers, queue := [], popped := [] }

/-- Per-producer view: what producer `i`'s events look like across popped,
queued and not-yet-pushed portions. -/
def producerView {α : Type} (i : Nat) (s : QState α) : List α :=
  proj i s.popped ++ proj i s.queue ++ (s.pending[i]?).getD []

lemma proj_append {α : Type} (i : Nat) (a b : List (Nat × α)) :
    proj i (a ++ b) = proj i a ++ proj i b := by
  simp [proj, List.filter_append]

lemma qstep_view {α : Type} (s : QState α) (st : SchedStep) (i : Nat) :
    producerView i (qstep s st) = producerView i s := by
  cases st with
  | pop =>
    cases hq : s.queue with
    | nil => simp [qstep, hq]
    | cons q qs =>
      simp only [qstep, hq, producerView, proj_append]
      by_cases hqi : q.1 = i
      · simp [proj, hqi, List.append_assoc]
      · simp [proj, hqi]
  | push j =>
    cases hp : s.pending[j]? with
    | none => simp [qstep, hp]
    | some pj =>
      cases pj with
      | nil => simp [qstep, hp]
      | cons x xs =>
        have hlt : j < s.pending.length := by
          rcases List.getElem?_eq_some.mp hp with ⟨h, _⟩
          exact h
        by_cases hij : i = j
        · subst hij
          simp only [qstep, hp, producerView, proj_append]
          rw [List.getElem?_set_eq_of_lt xs hlt]
          simp [proj, List.append_assoc, hp]
        · simp only [qstep, hp, producerView, proj_append]
          rw [List.getElem?_set_ne (Ne.symm hij)]
          simp [proj, Ne.symm hij]

lemma runSched_view {α : Type} (steps : List SchedStep) :
    ∀ (s : QState α) (i : Nat),
      producerView i (runSched s steps) = producerView i s := by
  induction steps with
  | nil => intro s i; rfl
  | cons st rest ih =>
    intro s i
    have : runSched s (st :: rest) = runSched (qstep s st) rest := rfl
    rw [this, ih (qstep s st) i, qstep_view]

/-- C8: however producer `put`s and dispatcher `get`s interleave, the
events the dispatcher has popped from producer `i`, in pop order, are an
initial segment of the list producer `i` pushed, in push order: the queue
never reorders one producer's events, whatever arrives in between from the
others.  The equation decomposes producer `i`'s pushed list into its
popped, still-queued and not-yet-pushed parts, in that order. -/
theorem queue_fifo_per_producer (producers : List (List Event))
    (steps : List SchedStep) (i : Nat) :
    (proj i (runSched (initQ producers) steps).popped
        ++ proj i (runSched (initQ producers) steps).queue
        ++ ((runSched (initQ producers) steps).pending[i]?).getD []
      = (producers[i]?).getD [])
    ∧ ∃ t, proj i (runSched (initQ producers) steps).popped ++ t
        = (producers[i]?).getD [] := by
  have h := runSched_view steps (initQ producers) i
  simp only [producerView, initQ, proj] at h
  simp only [List.filter_nil, List.map_nil, List.nil_append] at h
  refine ⟨h, ⟨proj i (runSched (initQ producers) steps).queue
      ++ ((runSched (initQ producers) steps).pending[i]?).getD [], ?_⟩⟩
  rw [← List.append_assoc]
  exact h

end Himawari
